import Mathlib

/-!
Shallow embedding of the `prod-express-server` repository
(src/config.js and src/server.js) for verification of its
natural-language specification.

Environment variables are modelled as `Option String` (none = unset).
JavaScript truthiness on strings: undefined and the empty string are
falsy, every other string is truthy.
-/

/-- JavaScript `a || b` where `a` is an optional string and `b` a string
default: undefined and the empty string are falsy. -/
def jsOrStr (a : Option String) (b : String) : String :=
  match a with
  | none => b
  | some s => if s = "" then b else s

/-- JavaScript `a || b` where `a` is an optional numeric status and `b` a
number default: undefined and 0 are falsy. Embeds `err.status || 500`. -/
def jsOrNat (a : Option Nat) (b : Nat) : Nat :=
  match a with
  | none => b
  | some n => if n = 0 then b else n

/-- JavaScript whitespace test, restricted to the ASCII whitespace
characters Lean knows (space, tab, carriage return, newline). -/
def isWs (c : Char) : Bool := c.isWhitespace

/-- Splitting a character list on the comma character, as JavaScript
`val.split(",")` does for a one-character separator: `"a,,b"` gives three
pieces, a trailing comma yields a trailing empty piece, and the empty
string yields one empty piece. -/
def splitOnComma : List Char → List (List Char)
  | [] => [[]]
  | c :: rest =>
    match splitOnComma rest with
    | [] => [[c]]
    | p :: ps => if c = ',' then [] :: p :: ps else (c :: p) :: ps

/-- JavaScript `String.prototype.trim`: drop leading and trailing
whitespace characters. -/
def trimChars (l : List Char) : List Char :=
  ((l.dropWhile isWs).reverse.dropWhile isWs).reverse

/-- `s.split(",")` on Lean strings. -/
def jsSplitComma (s : String) : List String :=
  (splitOnComma s.data).map (fun l => ⟨l⟩)

/-- `s.trim()` on Lean strings. -/
def jsTrim (s : String) : String := ⟨trimChars s.data⟩

/-- src/config.js `parseOrigins`: if the value is falsy (unset or empty)
return the empty list, otherwise split on commas, trim each entry and
keep only truthy (non-empty) entries, as `filter(Boolean)` does. -/
def parseOrigins (val : Option String) : List String :=
  match val with
  | none => []
  | some s =>
    if s = "" then []
    else ((jsSplitComma s).map jsTrim).filter (fun e => e ≠ "")

/-- Result of JavaScript numeric coercion: NaN, a finite value (modelled
exactly as a rational, ignoring float rounding), or an infinity. -/
inductive JSNum where
  | nan : JSNum
  | finite (q : ℚ) : JSNum
  | posInf : JSNum
  | negInf : JSNum
deriving DecidableEq, Repr

/-- Value of a digit character in a given base, used for the radix
literals accepted by JavaScript `Number`. -/
def digitVal (c : Char) : Nat :=
  if '0' ≤ c ∧ c ≤ '9' then c.toNat - '0'.toNat
  else if 'a' ≤ c ∧ c ≤ 'f' then c.toNat - 'a'.toNat + 10
  else if 'A' ≤ c ∧ c ≤ 'F' then c.toNat - 'A'.toNat + 10
  else 0

/-- Whether a character is a valid digit in the given base (2, 8, 10 or 16). -/
def isBaseDigit (base : Nat) (c : Char) : Bool :=
  (digitVal c < base) ∧ (c.isDigit ∨ ('a' ≤ c ∧ c ≤ 'f') ∨ ('A' ≤ c ∧ c ≤ 'F'))

/-- Accumulate a digit list into a natural number in the given base. -/
def digitsToNat (base : Nat) (ds : List Char) : Nat :=
  ds.foldl (fun a c => a * base + digitVal c) 0

/-- Exponent digits of a decimal literal: at least one decimal digit and
nothing else. -/
def parseExpDigits (l : List Char) : Option Int :=
  if l ≠ [] ∧ l.all Char.isDigit then some (digitsToNat 10 l : Int) else none

/-- Optional exponent part of a JavaScript decimal literal: empty, or
`e`/`E` followed by an optionally signed digit string, consuming all
remaining input. -/
def parseExp : List Char → Option Int
  | [] => some 0
  | c :: r =>
    if c = 'e' ∨ c = 'E' then
      match r with
      | '+' :: r2 => parseExpDigits r2
      | '-' :: r2 => (parseExpDigits r2).map (fun n => -n)
      | r2 => parseExpDigits r2
    else none

/-- Exact value of a decimal literal with integer digits `ip`, fraction
digits `fp` and exponent `e`: reading the digit string `ip ++ fp` as an
integer, the value is that integer scaled by 10 to the power `e` minus
the number of fraction digits. -/
def decVal (ip fp : List Char) (e : Int) : ℚ :=
  let digits : ℤ := (digitsToNat 10 (ip ++ fp) : ℤ)
  let scale : ℤ := e - (fp.length : ℤ)
  if 0 ≤ scale then ((digits * 10 ^ scale.toNat : ℤ) : ℚ)
  else (digits : ℚ) / ((10 ^ (-scale).toNat : ℕ) : ℚ)

/-- Unsigned decimal literal of the JavaScript `Number` string grammar:
`digits`, `digits . digits?`, `. digits`, each with an optional exponent;
the whole input must be consumed. -/
def parseDecimal (l : List Char) : Option ℚ :=
  let ip := l.takeWhile Char.isDigit
  let r1 := l.dropWhile Char.isDigit
  match r1 with
  | '.' :: r2 =>
    let fp := r2.takeWhile Char.isDigit
    let r3 := r2.dropWhile Char.isDigit
    if ip = [] ∧ fp = [] then none
    else (parseExp r3).map (decVal ip fp)
  | _ =>
    if ip = [] then none else (parseExp r1).map (decVal ip [])

/-- Unsigned part of a numeric string: the literal `Infinity` or a
decimal literal. -/
def unsignedNum (l : List Char) : JSNum :=
  if l = "Infinity".data then .posInf
  else
    match parseDecimal l with
    | some q => .finite q
    | none => .nan

/-- Negation on coercion results. -/
def negJS : JSNum → JSNum
  | .nan => .nan
  | .finite q => .finite (-q)
  | .posInf => .negInf
  | .negInf => .posInf

/-- Optionally signed decimal or Infinity literal. -/
def signedNum (l : List Char) : JSNum :=
  match l with
  | '+' :: r => unsignedNum r
  | '-' :: r => negJS (unsignedNum r)
  | _ => unsignedNum l

/-- Radix literal body: at least one digit of the base and nothing else. -/
def radixNum (base : Nat) (rest : List Char) : JSNum :=
  if rest ≠ [] ∧ rest.all (isBaseDigit base) then .finite (digitsToNat base rest : ℚ)
  else .nan

/-- JavaScript `Number(s)` for a string argument: trim whitespace; the
empty remainder is 0; an (unsigned) `0x`/`0o`/`0b` radix literal, or an
optionally signed decimal or Infinity literal; anything else is NaN.
Values are exact rationals rather than rounded doubles. -/
def jsStringToNumber (s : String) : JSNum :=
  match trimChars s.data with
  | [] => .finite 0
  | '0' :: c :: rest =>
    if c = 'x' ∨ c = 'X' then radixNum 16 rest
    else if c = 'o' ∨ c = 'O' then radixNum 8 rest
    else if c = 'b' ∨ c = 'B' then radixNum 2 rest
    else signedNum ('0' :: c :: rest)
  | t => signedNum t

/-- src/config.js `port: Number(process.env.PORT || 3000)`: an unset or
empty PORT falls back to the number 3000, any other string goes through
numeric coercion (so a non-numeric string yields NaN, with no failure). -/
def portOf (PORT : Option String) : JSNum :=
  match PORT with
  | none => .finite 3000
  | some s => if s = "" then .finite 3000 else jsStringToNumber s

/-- The environment variables src/config.js reads. -/
structure EnvVars where
  NODE_ENV : Option String
  PORT : Option String
  CORS_ORIGINS : Option String
  TRUST_PROXY : Option String
  BASE_URL : Option String
deriving DecidableEq

/-- The configuration object exported by src/config.js. -/
structure Config where
  env : String
  port : JSNum
  corsOrigins : List String
  trustProxy : Bool
  baseUrl : Option String
deriving DecidableEq

/-- src/config.js `module.exports`: read each variable once, apply the
defaults and normalisations of the source. `BASE_URL || null` maps unset
and empty to none. -/
def loadConfig (e : EnvVars) : Config :=
  { env := jsOrStr e.NODE_ENV "development"
  , port := portOf e.PORT
  , corsOrigins := parseOrigins e.CORS_ORIGINS
  , trustProxy := e.TRUST_PROXY == some "1"
  , baseUrl := match e.BASE_URL with
      | none => none
      | some s => if s = "" then none else some s }

/-- An incoming HTTP request as far as the modelled middleware chain
inspects it: method, path (without query string), optional Origin header
and the client IP used for rate-limit bucketing. -/
structure Request where
  method : String
  path : String
  origin : Option String
  ip : String
deriving DecidableEq

/-- A JSON field value appearing in the responses of src/server.js. -/
inductive JVal where
  | jb (v : Bool) : JVal
  | js (v : String) : JVal
  | jarr (v : List String) : JVal
deriving DecidableEq, Repr

/-- A response body: plain text or a JSON object given as ordered fields. -/
inductive BodyVal where
  | text (s : String) : BodyVal
  | json (fields : List (String × JVal)) : BodyVal
deriving DecidableEq, Repr

/-- An HTTP response as the claims inspect it. -/
structure Response where
  status : Nat
  body : BodyVal
deriving DecidableEq, Repr

/-- A JavaScript Error as the terminal error handler reads it: an
optional numeric status property and a message. An Error built by
`new Error(msg)` has no status property. -/
structure JsError where
  status : Option Nat
  message : String
deriving DecidableEq

/-- src/server.js terminal error-handling middleware: respond with
`err.status || 500` and a JSON body whose error field is the generic
string in production and the actual error message otherwise. -/
def errorHandler (env : String) (err : JsError) : Response :=
  { status := jsOrNat err.status 500
  , body := .json
      [ ("ok", .jb false)
      , ("error", .js (if env = "production" then "Internal Server Error" else err.message)) ] }

/-- src/server.js `corsOptions` origin callback combined with the cors
middleware dispatch: with a non-empty allow-list, a falsy Origin header
(absent or empty) or a listed origin passes, any other origin produces
`new Error("Not allowed by CORS")` which flows to the error handler;
with an empty allow-list the permissive default applies and nothing is
rejected. -/
def corsDecision (origins : List String) (origin : Option String) : Option JsError :=
  if origins.length = 0 then none
  else
    match origin with
    | none => none
    | some o =>
      if o = "" then none
      else if origins.contains o then none
      else some { status := none, message := "Not allowed by CORS" }

/-- The options record passed to `rateLimit` in src/server.js. -/
structure RateLimitOptions where
  windowMs : Nat
  max : Nat
  standardHeaders : Bool
  legacyHeaders : Bool
deriving DecidableEq

/-- src/server.js `apiLimiter`: 10 minute fixed window, 100 requests per
client IP, standard headers on, legacy headers off. -/
def apiLimiter : RateLimitOptions :=
  { windowMs := 10 * 60 * 1000
  , max := 100
  , standardHeaders := true
  , legacyHeaders := false }

/-- Rate limiter store: one bucket per client IP holding the request
count of the current window and the time the window ends. -/
abbrev LimiterState := List (String × Nat × Nat)

/-- Modelled from the spec: the express-rate-limit middleware itself is a
library (an external collaborator per the concurrency section) and its
code is not in the repository; the spec describes a fixed-window counter
per client IP that is reset on window expiry. One hit: look up the IP
bucket, reset it if the window expired, increment, and allow the request
exactly when the count stays within the cap. -/
def limiterHit (opts : RateLimitOptions) (st : LimiterState) (ip : String) (now : Nat) :
    Bool × LimiterState :=
  match st.find? (fun b => b.1 = ip) with
  | some (_, c, we) =>
    if now < we then
      (decide (c + 1 ≤ opts.max), (ip, c + 1, we) :: st.filter (fun b => b.1 ≠ ip))
    else
      (decide (1 ≤ opts.max), (ip, 1, now + opts.windowMs) :: st.filter (fun b => b.1 ≠ ip))
  | none => (decide (1 ≤ opts.max), (ip, 1, now + opts.windowMs) :: st)

/-- Modelled from the spec: the rate-limit-exceeded response contract is
status 429 with the limiter library default text body; the route handler
is not invoked. -/
def rateLimitResponse : Response :=
  { status := 429, body := .text "Too many requests, please try again later." }

/-- Express mounts `apiLimiter` at the path prefix "/api": the mount
matches the path "/api" itself and any path below it. -/
def underApiMount (p : String) : Bool :=
  p == "/api" || "/api/".data.isPrefixOf p.data

/-- The 404 middleware of src/server.js. -/
def notFoundResponse : Response :=
  { status := 404, body := .json [("ok", .jb false), ("error", .js "Not Found")] }

/-- Modelled from the spec: Express route dispatch is library code not in
the repository; the route table of the spec wires exactly GET for the
four registered paths (other methods fall through to the 404 middleware).
The handlers themselves are transcribed from src/server.js; `nowIso` is
the current time rendered as an ISO-8601 string. -/
def routeDispatch (cfg : Config) (nowIso : String) (req : Request) : Option Response :=
  if req.method = "GET" ∧ req.path = "/livez" then
    some { status := 200, body := .text "OK" }
  else if req.method = "GET" ∧ req.path = "/readyz" then
    some { status := 200, body := .text "READY" }
  else if req.method = "GET" ∧ req.path = "/api/hello" then
    some { status := 200, body := .json [
      ("ok", .jb true),
      ("message", .js "Hello from Express (prod-ready)!"),
      ("time", .js nowIso)] }
  else if req.method = "GET" ∧ req.path = "/" then
    some { status := 200, body := .json [
      ("ok", .jb true),
      ("service", .js "prod-express-server"),
      ("endpoints", .jarr ["/api/hello", "/livez", "/readyz"]),
      ("env", .js cfg.env),
      ("baseUrl", .js (jsOrStr cfg.baseUrl "set BASE_URL in env to print public URL"))] }
  else none

/-- Which stage of the chain produced the response. -/
inductive Responder where
  | corsReject : Responder
  | rateLimited : Responder
  | route : Responder
  | notFound : Responder
deriving DecidableEq, Repr

/-- One request through the middleware chain of src/server.js in source
order: CORS decision first (a rejection becomes an Error handled by the
terminal error handler), then the rate limiter for paths under the /api
mount, then route dispatch, then the 404 middleware. Logging, helmet,
compression and body parsing do not affect the properties claimed and
are omitted. Returns the response, the responding stage and the limiter
state after the request. -/
def handleRequest (cfg : Config) (st : LimiterState) (req : Request) (now : Nat)
    (nowIso : String) : Response × Responder × LimiterState :=
  match corsDecision cfg.corsOrigins req.origin with
  | some e => (errorHandler cfg.env e, .corsReject, st)
  | none =>
    let hit := if underApiMount req.path then limiterHit apiLimiter st req.ip now else (true, st)
    if hit.1 then
      match routeDispatch cfg nowIso req with
      | some r => (r, .route, hit.2)
      | none => (notFoundResponse, .notFound, hit.2)
    else
      (rateLimitResponse, .rateLimited, hit.2)

/-- Run a sequence of requests, each given with its arrival time and the
ISO time string its handler would render, threading the limiter state. -/
def runSeq (cfg : Config) : LimiterState → List (Request × Nat × String) →
    List (Response × Responder) × LimiterState
  | st, [] => ([], st)
  | st, (r, now, iso) :: rest =>
    let step := handleRequest cfg st r now iso
    let tail := runSeq cfg step.2.2 rest
    ((step.1, step.2.1) :: tail.1, tail.2)

/-- src/server.js `genReqId`: reuse the inbound x-request-id header when
it is truthy, otherwise return undefined (`h || undefined` yields
undefined for an absent or empty header). -/
def genReqId (xRequestId : Option String) : Option String :=
  match xRequestId with
  | none => none
  | some s => if s = "" then none else some s

/-- Modelled from the spec: the logging middleware assigns a request
identifier, reusing the inbound correlation header if present, else
generating a fresh one; the generation itself happens in the pino-http
library when `genReqId` returns undefined. -/
def requestId (xRequestId : Option String) (fresh : String) : String :=
  (genReqId xRequestId).getD fresh

/-- The signals src/server.js wires to `shutdown`. -/
def signalsWired : List String := ["SIGINT", "SIGTERM"]

/-- The delay of the forced-shutdown timer in `shutdown` (milliseconds). -/
def watchdogDelayMs : Nat := 10000

/-- Exit code of the watchdog timer callback in `shutdown`. -/
def watchdogExitCode : Nat := 1

/-- Whether the watchdog timer keeps the event loop (and so the process)
alive: `shutdown` calls `.unref()` on it, so it does not. -/
def watchdogRefed : Bool := false

/-- Exit code chosen by the `server.close` callback in `shutdown`:
1 when closing reported an error, 0 on a clean drain. -/
def drainCallbackExit (isErr : Bool) : Nat := if isErr then 1 else 0

/-- Discrete-time run of `shutdown` after a termination signal: the drain
outcome is `some (t, isErr)` when the `server.close` callback fires
`t` milliseconds after the signal reporting an error or not, and `none`
when the drain never completes. Whichever of the drain callback and the
watchdog timer fires first calls `process.exit`; the result is the exit
code and the exit time. -/
def shutdownRun (drain : Option (Nat × Bool)) : Nat × Nat :=
  match drain with
  | some (t, isErr) =>
    if t < watchdogDelayMs then (drainCallbackExit isErr, t)
    else (watchdogExitCode, watchdogDelayMs)
  | none => (watchdogExitCode, watchdogDelayMs)

/-- A configuration with no CORS allow-list (as when CORS_ORIGINS is
unset), used as a concrete test fixture. -/
def cfg0 : Config :=
  { env := "development", port := .finite 3000, corsOrigins := [], trustProxy := false
  , baseUrl := none }

/-- A configuration whose allow-list holds exactly one origin. -/
def cfgA : Config :=
  { env := "development", port := .finite 3000, corsOrigins := ["https://a.example"]
  , trustProxy := false, baseUrl := none }

/-- A request to the API route carrying an Origin outside the allow-list. -/
def reqEvil : Request :=
  { method := "GET", path := "/api/hello", origin := some "https://evil.example", ip := "1.2.3.4" }

/-- A plain request to the API route with no Origin header. -/
def reqApi : Request :=
  { method := "GET", path := "/api/hello", origin := none, ip := "1.2.3.4" }

/-- The rate-limit scenario of the spec: 101 requests from one client IP
at time 0, then one more after the 10 minute window has elapsed. -/
def scenario : List (Request × Nat × String) :=
  (List.replicate 101 (reqApi, 0, "T")) ++ [(reqApi, 600000, "T")]

/-- Follows the spec words for the allowedOrigins field: the list obtained
by splitting the CORS_ORIGINS string on commas, trimming whitespace from
each entry and dropping empty entries; the empty list when unset. To be
compared with `parseOrigins` from the source. -/
def allowedOriginsSpec (v : Option String) : List String :=
  match v with
  | none => []
  | some s => ((jsSplitComma s).map jsTrim).filter (fun e => e ≠ "")

theorem splitOnComma_ne_nil (l : List Char) : splitOnComma l ≠ [] := by
  cases l with
  | nil => simp [splitOnComma]
  | cons c rest =>
    unfold splitOnComma
    cases h : splitOnComma rest with
    | nil => simp
    | cons p ps => by_cases hc : c = ',' <;> simp [hc]

theorem mem_splitOnComma {l piece : List Char} {c : Char}
    (hp : piece ∈ splitOnComma l) (hc : c ∈ piece) : c ∈ l ∧ c ≠ ',' := by
  induction l generalizing piece with
  | nil =>
    simp [splitOnComma] at hp
    subst hp
    simp at hc
  | cons a rest ih =>
    unfold splitOnComma at hp
    cases h : splitOnComma rest with
    | nil => exact absurd h (splitOnComma_ne_nil rest)
    | cons p ps =>
      rw [h] at hp
      have hp' : piece ∈ (if a = ',' then [] :: p :: ps else (a :: p) :: ps) := hp
      by_cases ha : a = ','
      · rw [if_pos ha] at hp'
        rcases List.mem_cons.mp hp' with hpe | hp2
        · subst hpe; simp at hc
        · have := ih (h ▸ hp2) hc
          exact ⟨List.mem_cons_of_mem a this.1, this.2⟩
      · rw [if_neg ha] at hp'
        rcases List.mem_cons.mp hp' with hpe | hp2
        · subst hpe
          rcases List.mem_cons.mp hc with rfl | hcp
          · exact ⟨List.mem_cons_self _ _, ha⟩
          · have hpmem : p ∈ splitOnComma rest := by rw [h]; exact List.mem_cons_self _ _
            have := ih hpmem hcp
            exact ⟨List.mem_cons_of_mem a this.1, this.2⟩
        · have hpmem : piece ∈ splitOnComma rest := by
            rw [h]; exact List.mem_cons_of_mem p hp2
          have := ih hpmem hc
          exact ⟨List.mem_cons_of_mem a this.1, this.2⟩

theorem trimChars_of_all_ws {l : List Char} (h : ∀ c ∈ l, isWs c) : trimChars l = [] := by
  unfold trimChars
  rw [List.dropWhile_eq_nil_iff.2 h]
  rfl

/-- Claim C8: for every CORS_ORIGINS environment string, the loaded
allow-list is the list obtained by splitting on commas, trimming each
entry and dropping empty entries, and it is empty when the variable is
unset: the source `parseOrigins` coincides with the spec description on
every input. -/
theorem parseOrigins_matches_spec :
    (∀ v, parseOrigins v = allowedOriginsSpec v) ∧ parseOrigins none = [] := by
  constructor
  · intro v
    cases v with
    | none => rfl
    | some s =>
      by_cases h : s = ""
      · subst h; decide
      · simp only [parseOrigins, allowedOriginsSpec, if_neg h]
  · rfl

/-- Claim C9: a CORS_ORIGINS value made only of commas and whitespace
parses to the empty allow-list, identical to the unset case, so the CORS
stage is in the permissive default mode and rejects nothing. -/
theorem commaWhitespaceOrigins_permissive :
    ∀ s : String, (∀ c ∈ s.data, c = ',' ∨ isWs c) →
      parseOrigins (some s) = [] ∧
      parseOrigins (some s) = parseOrigins none ∧
      (∀ origin, corsDecision (parseOrigins (some s)) origin = none) := by
  intro s hs
  have hmain : parseOrigins (some s) = [] := by
    by_cases h : s = ""
    · simp [parseOrigins, h]
    · simp only [parseOrigins, if_neg h]
      apply List.filter_eq_nil_iff.2
      intro e he
      simp only [List.mem_map, jsSplitComma] at he
      obtain ⟨t, ⟨piece, hpiece, rfl⟩, rfl⟩ := he
      have hws : ∀ c ∈ piece, isWs c := by
        intro c hcp
        have hmem := mem_splitOnComma hpiece hcp
        rcases hs c hmem.1 with hcomma | hw
        · exact absurd hcomma hmem.2
        · exact hw
      have : jsTrim ⟨piece⟩ = "" := by
        unfold jsTrim
        rw [trimChars_of_all_ws hws]
      simp [this]
  refine ⟨hmain, ?_, ?_⟩
  · rw [hmain]; rfl
  · intro origin
    rw [hmain]
    rfl

/-- Claim C7 counterexample: the claim asserts that a missing PORT value
yields a non-numeric (NaN) listen target, but the loader falls back to
the number 3000 when PORT is unset. -/
theorem missingPort_not_nan :
    portOf none = JSNum.finite 3000 ∧ portOf none ≠ JSNum.nan := by decide

/-- Claim C7 (amended): the configuration loader never fails at startup;
a set, non-empty, non-numeric PORT value goes through silent numeric
coercion and yields NaN as the listen target, while a missing or empty
PORT silently falls back to the numeric default 3000. -/
theorem portOf_spec :
    (∀ s, s ≠ "" → portOf (some s) = jsStringToNumber s) ∧
    portOf none = JSNum.finite 3000 ∧
    portOf (some "") = JSNum.finite 3000 ∧
    jsStringToNumber "abc" = JSNum.nan ∧
    jsStringToNumber "12abc" = JSNum.nan ∧
    jsStringToNumber "8080" = JSNum.finite 8080 := by
  refine ⟨?_, by decide, by decide, by decide, by decide, by decide⟩
  intro s h
  simp [portOf, h]

theorem portOf_spec_witness :
    portOf (some "abc") = jsStringToNumber "abc" ∧ portOf (some "abc") = JSNum.nan := by
  have h := portOf_spec.1 "abc" (by decide)
  exact ⟨h, h.trans portOf_spec.2.2.2.1⟩

/-- Claim C10: an inbound x-request-id header equal to the empty string
is treated as absent by `genReqId` (it returns undefined, so the logging
layer generates a fresh identifier), while a non-empty inbound header is
reused verbatim. -/
theorem genReqId_spec :
    genReqId (some "") = none ∧
    genReqId none = none ∧
    (∀ s, s ≠ "" → genReqId (some s) = some s) ∧
    (∀ f, requestId (some "") f = f) ∧
    (∀ s f, s ≠ "" → requestId (some s) f = s) := by
  refine ⟨rfl, rfl, ?_, fun f => rfl, ?_⟩
  · intro s h
    simp [genReqId, h]
  · intro s f h
    simp [requestId, genReqId, h]

theorem genReqId_spec_witness :
    genReqId (some "abc-123") = some "abc-123" ∧
    requestId (some "abc-123") "fresh" = "abc-123" :=
  ⟨genReqId_spec.2.2.1 "abc-123" (by decide),
   genReqId_spec.2.2.2.2 "abc-123" "fresh" (by decide)⟩

/-- Claim C3: every error reaching the terminal error-handling middleware
is answered with the status code attached to the error when one is
present (a positive number, since JavaScript `err.status || 500` treats 0
as absent) and 500 otherwise, and the JSON error message is exactly
"Internal Server Error" in production and the actual error message in
every other environment. -/
theorem errorHandler_contract (env : String) (err : JsError) :
    (∀ n, err.status = some n → 0 < n → (errorHandler env err).status = n) ∧
    (err.status = none → (errorHandler env err).status = 500) ∧
    (errorHandler env err).body = .json [("ok", .jb false),
      ("error", .js (if env = "production" then "Internal Server Error" else err.message))] := by
  refine ⟨?_, ?_, rfl⟩
  · intro n h hn
    simp [errorHandler, jsOrNat, h, Nat.pos_iff_ne_zero.mp hn]
  · intro h
    simp [errorHandler, jsOrNat, h]

theorem errorHandler_contract_witness :
    (errorHandler "development" ⟨some 413, "Payload Too Large"⟩).status = 413 ∧
    (errorHandler "production" ⟨none, "boom"⟩).status = 500 ∧
    (errorHandler "production" ⟨none, "boom"⟩).body =
      .json [("ok", .jb false), ("error", .js "Internal Server Error")] := by
  refine ⟨(errorHandler_contract "development" ⟨some 413, "Payload Too Large"⟩).1 413 rfl
            (by decide),
          (errorHandler_contract "production" ⟨none, "boom"⟩).2.1 rfl, ?_⟩
  have h := (errorHandler_contract "production" ⟨none, "boom"⟩).2.2
  simpa using h

/-- Claim C2: both termination signals are wired to `shutdown`; the
process exits 0 exactly when the drain completes cleanly before the
watchdog delay, exits 1 when the drain reports an error, and the
10-second watchdog forces exit 1 whenever the drain has not completed by
then; the watchdog timer is unreferenced, so it never by itself keeps the
process alive once the drain has finished. -/
theorem shutdown_spec :
    signalsWired = ["SIGINT", "SIGTERM"] ∧
    (∀ d, (shutdownRun d).1 = 0 ↔ ∃ t, d = some (t, false) ∧ t < watchdogDelayMs) ∧
    (∀ t, t < watchdogDelayMs → shutdownRun (some (t, true)) = (1, t)) ∧
    (∀ t e, watchdogDelayMs ≤ t → shutdownRun (some (t, e)) = (1, watchdogDelayMs)) ∧
    shutdownRun none = (1, watchdogDelayMs) ∧
    watchdogDelayMs = 10000 ∧
    watchdogRefed = false := by
  refine ⟨rfl, ?_, ?_, ?_, rfl, rfl, rfl⟩
  · intro d
    match d with
    | none =>
      simp [shutdownRun, watchdogExitCode]
    | some (t, e) =>
      constructor
      · intro h
        by_cases ht : t < watchdogDelayMs
        · cases e with
          | true => simp [shutdownRun, if_pos ht, drainCallbackExit] at h
          | false => exact ⟨t, rfl, ht⟩
        · simp [shutdownRun, if_neg ht, watchdogExitCode] at h
      · rintro ⟨t', ht', hlt⟩
        rw [Option.some.injEq, Prod.mk.injEq] at ht'
        obtain ⟨h1, rfl⟩ := ht'
        subst h1
        simp [shutdownRun, if_pos hlt, drainCallbackExit]
  · intro t ht
    simp [shutdownRun, if_pos ht, drainCallbackExit]
  · intro t e ht
    simp [shutdownRun, Nat.not_lt.mpr ht, watchdogExitCode]

theorem shutdown_spec_witness :
    shutdownRun (some (2000, false)) = (0, 2000) ∧
    shutdownRun (some (2000, true)) = (1, 2000) ∧
    shutdownRun (some (20000, false)) = (1, 10000) :=
  ⟨by decide, shutdown_spec.2.2.1 2000 (by decide),
   shutdown_spec.2.2.2.1 20000 false (by decide)⟩

/-- Claim C1 counterexample: with allow-list ["https://a.example"], a
request whose Origin header is "https://evil.example" is rejected by the
CORS stage before any handler runs, but the rejection is surfaced with
status 500 rather than a 4xx status, because the Error raised by the
origin callback carries no status code and the terminal error handler
defaults to 500. -/
theorem corsReject_not_4xx :
    (handleRequest cfgA [] reqEvil 0 "T").2.1 = Responder.corsReject ∧
    (handleRequest cfgA [] reqEvil 0 "T").1.status = 500 ∧
    ¬(400 ≤ (handleRequest cfgA [] reqEvil 0 "T").1.status ∧
      (handleRequest cfgA [] reqEvil 0 "T").1.status < 500) := by decide

/-- Claim C1 (amended): for every request whose Origin header is present
(and non-empty) and not in a configured non-empty allow-list, the CORS
stage rejects the request without invoking any route handler and the
rejection is surfaced with status 500 and a structured JSON error body;
requests with no Origin header, or with an Origin in the allow-list,
pass through the CORS stage. -/
theorem corsStage_spec (cfg : Config) (st : LimiterState) (req : Request) (now : Nat)
    (iso : String) :
    (cfg.corsOrigins ≠ [] → ∀ o, req.origin = some o → o ≠ "" →
      cfg.corsOrigins.contains o = false →
      (handleRequest cfg st req now iso).2.1 = Responder.corsReject ∧
      (handleRequest cfg st req now iso).1 =
        { status := 500
        , body := .json [("ok", .jb false),
            ("error", .js (if cfg.env = "production" then "Internal Server Error"
                           else "Not allowed by CORS"))] }) ∧
    (req.origin = none → (handleRequest cfg st req now iso).2.1 ≠ Responder.corsReject) ∧
    (∀ o, req.origin = some o → cfg.corsOrigins.contains o = true →
      (handleRequest cfg st req now iso).2.1 ≠ Responder.corsReject) := by
  refine ⟨?_, ?_, ?_⟩
  · intro hne o ho hoe hmem
    have hlen : ¬ cfg.corsOrigins.length = 0 := by
      simpa [List.length_eq_zero] using hne
    have hd : corsDecision cfg.corsOrigins req.origin =
        some { status := none, message := "Not allowed by CORS" } := by
      simp only [corsDecision, ho, if_neg hlen]
      rw [if_neg hoe, if_neg (fun hcon => Bool.false_ne_true (hmem ▸ hcon))]
    refine ⟨?_, ?_⟩
    · simp [handleRequest, hd]
    · simp [handleRequest, hd, errorHandler, jsOrNat]
  · intro ho
    have hd : corsDecision cfg.corsOrigins req.origin = none := by
      by_cases hlen : cfg.corsOrigins.length = 0
      · simp only [corsDecision, ho, if_pos hlen]
      · simp only [corsDecision, ho, if_neg hlen]
    unfold handleRequest
    rw [hd]
    dsimp only
    repeat' split
    all_goals simp
  · intro o ho hmem
    have hd : corsDecision cfg.corsOrigins req.origin = none := by
      by_cases hlen : cfg.corsOrigins.length = 0
      · simp only [corsDecision, ho, if_pos hlen]
      · simp only [corsDecision, ho, if_neg hlen]
        by_cases hoe : o = ""
        · rw [if_pos hoe]
        · rw [if_neg hoe, if_pos hmem]
    unfold handleRequest
    rw [hd]
    dsimp only
    repeat' split
    all_goals simp

theorem corsStage_spec_witness :
    (handleRequest cfgA [] reqEvil 0 "T").2.1 = Responder.corsReject ∧
    (handleRequest cfgA [] reqApi 0 "T").2.1 ≠ Responder.corsReject := by
  refine ⟨?_, ?_⟩
  · exact ((corsStage_spec cfgA [] reqEvil 0 "T").1 (by decide) "https://evil.example" rfl
      (by decide) (by decide)).1
  · exact (corsStage_spec cfgA [] reqApi 0 "T").2.1 rfl

/-- Claim C4: every GET request to /livez or /readyz that passes the CORS
stage is answered 200 with a plain-text body, and every request to those
paths with any other method falls through to the 404 JSON response
(routing strictness per the spec route table: only GET is wired). -/
theorem health_routes_spec (cfg : Config) (st : LimiterState) (req : Request) (now : Nat)
    (iso : String)
    (hc : corsDecision cfg.corsOrigins req.origin = none)
    (hp : req.path = "/livez" ∨ req.path = "/readyz") :
    (req.method = "GET" →
      (handleRequest cfg st req now iso).1 =
        { status := 200, body := .text (if req.path = "/livez" then "OK" else "READY") }) ∧
    (req.method ≠ "GET" →
      (handleRequest cfg st req now iso).1 = notFoundResponse ∧
      notFoundResponse.status = 404) := by
  obtain ⟨m, p, o, ip⟩ := req
  simp only at hc hp ⊢
  constructor
  · intro hm
    subst hm
    rcases hp with rfl | rfl <;>
      simp [handleRequest, hc, underApiMount, routeDispatch]
  · intro hm
    rcases hp with rfl | rfl <;>
      exact ⟨by simp [handleRequest, hc, underApiMount, routeDispatch, hm], rfl⟩

theorem health_routes_spec_witness :
    (handleRequest cfg0 [] ⟨"GET", "/livez", none, "9.9.9.9"⟩ 0 "T").1 =
      { status := 200, body := .text "OK" } ∧
    (handleRequest cfg0 [] ⟨"POST", "/readyz", none, "9.9.9.9"⟩ 0 "T").1 = notFoundResponse := by
  constructor
  · have h := (health_routes_spec cfg0 [] ⟨"GET", "/livez", none, "9.9.9.9"⟩ 0 "T" rfl
      (Or.inl rfl)).1 rfl
    simpa using h
  · exact ((health_routes_spec cfg0 [] ⟨"POST", "/readyz", none, "9.9.9.9"⟩ 0 "T" rfl
      (Or.inr rfl)).2 (by decide)).1

/-- Claim C6: every request that passes the CORS stage and is not rate
limited, and whose method-and-path pair matches none of the wired routes
(the four registered GET routes; the fifth table row is the catch-all
itself), is answered by the 404 middleware with status 404 and body
ok=false, error="Not Found" exactly. -/
theorem unmatched_404 (cfg : Config) (st : LimiterState) (req : Request) (now : Nat)
    (iso : String)
    (hc : corsDecision cfg.corsOrigins req.origin = none)
    (hl : underApiMount req.path = true → (limiterHit apiLimiter st req.ip now).1 = true)
    (hm : (req.method, req.path) ∉
      ([("GET", "/livez"), ("GET", "/readyz"), ("GET", "/api/hello"), ("GET", "/")] :
        List (String × String))) :
    (handleRequest cfg st req now iso).1 =
      { status := 404, body := .json [("ok", .jb false), ("error", .js "Not Found")] } := by
  obtain ⟨m, p, o, ip⟩ := req
  simp only [List.mem_cons, List.mem_singleton, Prod.mk.injEq, not_or] at hm
  obtain ⟨h1, h2, h3, h4, _⟩ := hm
  have hroute : routeDispatch cfg iso ⟨m, p, o, ip⟩ = none := by
    unfold routeDispatch
    rw [if_neg (by simpa using h1), if_neg (by simpa using h2),
        if_neg (by simpa using h3), if_neg (by simpa using h4)]
  simp only at hc hl
  unfold handleRequest
  rw [hc]
  dsimp only
  by_cases hapi : underApiMount p
  · rw [if_pos hapi, (hl hapi)]
    simp [hroute, notFoundResponse]
  · rw [if_neg hapi]
    simp [hroute, notFoundResponse]

theorem unmatched_404_witness :
    (handleRequest cfg0 [] ⟨"GET", "/nonexistent", none, "9.9.9.9"⟩ 0 "T").1 =
      { status := 404, body := .json [("ok", .jb false), ("error", .js "Not Found")] } :=
  unmatched_404 cfg0 [] ⟨"GET", "/nonexistent", none, "9.9.9.9"⟩ 0 "T" rfl (by decide)
    (by decide)

set_option maxRecDepth 10000 in
/-- Claim C5: rate limiting uses a fixed window of 10 minutes and a cap
of 100 requests per client-IP bucket with standard headers on and legacy
headers off; in the concrete scenario of 101 requests from one IP to an
/api path within one window the first 100 are served by the route
handler, the 101st receives 429 from the limiter without the handler
being invoked, and a request after window reset succeeds; and the
limiter is consulted only for paths under the /api mount, leaving the
limiter state untouched elsewhere. -/
theorem rateLimit_spec :
    (apiLimiter.windowMs = 600000 ∧ apiLimiter.max = 100 ∧
     apiLimiter.standardHeaders = true ∧ apiLimiter.legacyHeaders = false) ∧
    ((runSeq cfg0 [] scenario).1.map (fun p => (p.1.status, p.2)) =
      List.replicate 100 (200, Responder.route) ++
        [(429, Responder.rateLimited), (200, Responder.route)]) ∧
    (∀ (cfg : Config) (st : LimiterState) (req : Request) (now : Nat) (iso : String),
      underApiMount req.path = false →
      (handleRequest cfg st req now iso).2.1 ≠ Responder.rateLimited ∧
      (handleRequest cfg st req now iso).2.2 = st) := by
  refine ⟨by decide, by decide, ?_⟩
  intro cfg st req now iso h
  unfold handleRequest
  cases hcd : corsDecision cfg.corsOrigins req.origin with
  | some e => exact ⟨by simp, rfl⟩
  | none =>
    dsimp only
    rw [h]
    simp only [Bool.false_eq_true, if_false]
    cases routeDispatch cfg iso req <;> simp

theorem rateLimit_spec_witness :
    (handleRequest cfg0 [] ⟨"GET", "/livez", none, "9.9.9.9"⟩ 0 "T").2.1 ≠
      Responder.rateLimited ∧
    (handleRequest cfg0 [] ⟨"GET", "/livez", none, "9.9.9.9"⟩ 0 "T").2.2 = [] :=
  rateLimit_spec.2.2 cfg0 [] ⟨"GET", "/livez", none, "9.9.9.9"⟩ 0 "T" (by decide)

theorem commaWhitespaceOrigins_permissive_witness :
    parseOrigins (some " , ") = [] ∧
    parseOrigins (some " , ") = parseOrigins none ∧
    corsDecision (parseOrigins (some " , ")) (some "https://a.example") = none := by
  have h := commaWhitespaceOrigins_permissive " , " (by decide)
  exact ⟨h.1, h.2.1, h.2.2 (some "https://a.example")⟩
